import Mathlib

/-!
Shallow embedding of the mortgage amortization engine in `src/mortgage.py`
(FINE3300 Assignment 2, Part A): parameter validation, rate conversion,
level-payment computation, and period-by-period schedule generation.

Python floats are modelled as exact real numbers.  The CLI-supplied numeric
inputs (principal, quoted rate) are modelled as rationals — every IEEE-754
double is a rational number — so that validation is decidable; the year
counts are Python ints, modelled as `ℤ`.
-/

/-- Model of the `MortgageParams` frozen dataclass (`mortgage.py`, lines 20-25). -/
structure MortgageParams where
  principal : ℚ
  quoted_rate_percent : ℚ
  amort_years : ℤ
  term_years : ℤ
deriving DecidableEq

/-- Model of `MortgageParams.validate` (lines 27-37): the Python method raises
`ValueError` with a field-specific message at the first violated invariant;
modelled as an `Except` value. -/
def MortgageParams.validate (p : MortgageParams) : Except String Unit :=
  if p.principal ≤ 0 then Except.error (r"Principal must be positive.")
  else if p.quoted_rate_percent < 0 then Except.error (r"Quoted rate percent must be non-negative.")
  else if p.amort_years ≤ 0 then Except.error (r"Amortization years must be positive.")
  else if p.term_years ≤ 0 then Except.error (r"Term years must be positive.")
  else if p.term_years > p.amort_years then Except.error (r"Term years cannot exceed amortization years.")
  else Except.ok ()

/-- Model of `MortgageCalculator.ear_from_semi_annual_quote` (lines 41-44):
`j = quoted_rate_percent / 100`, result `(1 + j/2)^2 - 1`. -/
def ear_from_semi_annual_quote (quoted_rate_percent : ℚ) : ℚ :=
  (1 + quoted_rate_percent / 100 / 2) ^ 2 - 1

/-- Model of `MortgageCalculator.pva` (lines 46-50): present-value annuity
factor, degenerating to `n` at rate zero.  The Python exponent `-n` is an
int, so the power is an integer (`zpow`) power. -/
noncomputable def pva (rate : ℝ) (n : ℤ) : ℝ :=
  if rate = 0 then (n : ℝ) else (1 - (1 + rate) ^ (-n)) / rate

/-- Model of `MortgageCalculator.periodic_rate` (lines 52-54):
`(1 + ear) ** (1 / m) - 1`, a real (`rpow`) power since `1 / m` is Python
float division. -/
noncomputable def periodic_rate (ear : ℝ) (m : ℤ) : ℝ :=
  (1 + ear) ^ ((1 : ℝ) / (m : ℝ)) - 1

/-- Model of `MortgageCalculator.level_payment` (lines 56-61):
`n = int(amort_years * m)` is an exact integer product. -/
noncomputable def level_payment (principal quoted_rate_percent : ℚ)
    (amort_years m : ℤ) : ℝ :=
  (principal : ℝ) /
    pva (periodic_rate (ear_from_semi_annual_quote quoted_rate_percent : ℝ) m)
      (amort_years * m)

/-- Model of the cached `self._standard_monthly_pmt` computed in
`MortgageSchedule.__init__` (lines 78-83): the level payment at the monthly
frequency over the full amortization period. -/
noncomputable def standard_monthly_pmt (p : MortgageParams) : ℝ :=
  level_payment p.principal p.quoted_rate_percent p.amort_years 12

/-- Model of `MortgageSchedule.__init__` (lines 74-83): validates first and
only on success produces the cached state `(self._ear, self._standard_monthly_pmt)`. -/
noncomputable def mortgage_schedule_init (p : MortgageParams) :
    Except String (ℝ × ℝ) :=
  p.validate.bind fun _ =>
    Except.ok ((ear_from_semi_annual_quote p.quoted_rate_percent : ℝ),
      standard_monthly_pmt p)

/-- Model of the class attribute `MortgageSchedule.FREQS` (lines 65-72):
the fixed mapping from frequency key to (payments per year, display label);
a missing key yields `none` (Python: `KeyError`). -/
def FREQS (key : String) : Option (ℤ × String) :=
  if key = "monthly" then some (12, r"Monthly")
  else if key = "semi_monthly" then some (24, r"Semi-monthly")
  else if key = "bi_weekly" then some (26, r"Bi-weekly")
  else if key = "weekly" then some (52, r"Weekly")
  else if key = "rapid_biweekly" then some (26, r"Rapid Bi-weekly")
  else if key = "rapid_weekly" then some (52, r"Rapid Weekly")
  else none

/-- The six recognized frequency keys, i.e. the domain of `FREQS`. -/
def six_keys : List String :=
  [r"monthly", r"semi_monthly", r"bi_weekly", r"weekly", r"rapid_biweekly", r"rapid_weekly"]

/-- Model of `MortgageSchedule.payment_amounts` before its final 2-decimal
rounding (lines 86-93): level payment for the four ordinary frequencies,
and half / quarter of the cached standard monthly payment for the two rapid
variants; unknown keys are absent from the dict. -/
noncomputable def payments_raw (p : MortgageParams) (key : String) : Option ℝ :=
  if key = "rapid_biweekly" then some (standard_monthly_pmt p / 2)
  else if key = "rapid_weekly" then some (standard_monthly_pmt p / 4)
  else
    match FREQS key with
    | some (m, _) =>
        some (level_payment p.principal p.quoted_rate_percent p.amort_years m)
    | none => none

/-- Model of `np.round(v, 2)` (line 94): rounding to the nearest multiple of
`0.01`.  NumPy resolves exact half-cent ties to even; this model resolves
them upward — no claim depends on tie behaviour. -/
noncomputable def round2 (x : ℝ) : ℝ := (round (x * 100) : ℤ) / 100

/-- Model of the dict returned by `MortgageSchedule.payment_amounts`
(line 94): the raw amounts rounded to currency precision. -/
noncomputable def payment_amounts (p : MortgageParams) (key : String) : Option ℝ :=
  (payments_raw p key).map round2

/-- Model of one row appended by `MortgageSchedule.build_schedule_df`
(lines 116 and 121): `(Period, StartBalance, Interest, Payment, EndBalance)`. -/
structure ScheduleRow where
  period : ℤ
  startBalance : ℝ
  interest : ℝ
  payment : ℝ
  endBalance : ℝ

/-- Model of the payment selection in `build_schedule_df` (lines 102-105):
the two rapid variants reuse the cached standard monthly payment divided by
2 resp. 4; every other key gets an independently derived level payment. -/
noncomputable def schedule_payment (p : MortgageParams) (freq_key : String)
    (m : ℤ) : ℝ :=
  if freq_key = "rapid_biweekly" ∨ freq_key = "rapid_weekly" then
    standard_monthly_pmt p / (if freq_key = "rapid_biweekly" then 2 else 4)
  else level_payment p.principal p.quoted_rate_percent p.amort_years m

/-- Model of the `for t in range(1, n_term + 1)` loop of `build_schedule_df`
(lines 109-124), with the loop's `let`-bound locals inlined:
`interest = balance * r`, `principal_repay = payment - interest`; the capped
branch (lines 113-118) records `(t, start, interest, start + interest, 0)`
and breaks; the normal branch records the full payment and breaks when the
new balance is at most `0.01`.  The remaining iteration count is the fuel. -/
noncomputable def scheduleLoop (r payment : ℝ) : ℕ → ℤ → ℝ → List ScheduleRow
  | 0, _, _ => []
  | fuel + 1, t, balance =>
    if payment - balance * r > balance then
      [⟨t, balance, balance * r, balance + balance * r, 0⟩]
    else if balance - (payment - balance * r) ≤ 0.01 then
      [⟨t, balance, balance * r, payment, balance - (payment - balance * r)⟩]
    else
      ⟨t, balance, balance * r, payment, balance - (payment - balance * r)⟩ ::
        scheduleLoop r payment fuel (t + 1) (balance - (payment - balance * r))

/-- Model of `MortgageSchedule.build_schedule_df` (lines 96-128): unknown
keys raise `KeyError` (line 98); otherwise the rows are generated by the
period loop at the key's periodic rate and payment, over at most
`n_term = int(term_years * m)` periods, starting from balance
`float(principal)`, and are returned together with the frequency label and
payments-per-year metadata stored in `df.attrs`. -/
noncomputable def build_schedule_df (p : MortgageParams) (freq_key : String) :
    Except String (List ScheduleRow × String × ℤ) :=
  match FREQS freq_key with
  | none => Except.error (r"Unknown frequency: " ++ freq_key)
  | some (m, label) =>
      Except.ok
        (scheduleLoop
            (periodic_rate (ear_from_semi_annual_quote p.quoted_rate_percent : ℝ) m)
            (schedule_payment p freq_key m)
            (p.term_years * m).toNat 1 (p.principal : ℝ),
          label, m)

/-- Sample parameter set (principal 0.012, rate 0, amortization 1 year,
term 1 year) whose monthly schedule is fully computable: payment 0.001,
two rows, the second ending at the 0.01 floor. -/
def sampleParams : MortgageParams := MortgageParams.mk (3 / 250) 0 1 1

/-- Parameter set with an enormous quoted rate: `1 + q/200 = 3^13`, so the
effective annual growth factor is `3^26` and the bi-weekly periodic rate is
exactly 2.  Its rapid bi-weekly schedule triggers the capped early-payoff
branch in the very first period. -/
def capParams : MortgageParams := MortgageParams.mk 1 318864400 1 1

/-! ## Basic facts about validation -/

/-- Success of `validate` is exactly the conjunction of the documented
invariants. -/
lemma validate_ok_iff (p : MortgageParams) :
    p.validate = Except.ok () ↔
      0 < p.principal ∧ 0 ≤ p.quoted_rate_percent ∧ 0 < p.amort_years ∧
        0 < p.term_years ∧ p.term_years ≤ p.amort_years := by
  unfold MortgageParams.validate
  split_ifs with h1 h2 h3 h4 h5
  · simp only [reduceCtorEq, false_iff]
    rintro ⟨c, -⟩; exact absurd h1 (not_le.mpr c)
  · simp only [reduceCtorEq, false_iff]
    rintro ⟨-, c, -⟩; exact absurd h2 (not_lt.mpr c)
  · simp only [reduceCtorEq, false_iff]
    rintro ⟨-, -, c, -⟩; exact absurd h3 (not_le.mpr c)
  · simp only [reduceCtorEq, false_iff]
    rintro ⟨-, -, -, c, -⟩; exact absurd h4 (not_le.mpr c)
  · simp only [reduceCtorEq, false_iff]
    rintro ⟨-, -, -, -, c⟩; exact absurd h5 (not_lt.mpr c)
  · simp only [true_iff]
    exact ⟨not_le.mp h1, not_lt.mp h2, not_le.mp h3, not_le.mp h4, not_lt.mp h5⟩

/-- C1: with `term_years > amort_years`, or with `principal = 0`,
validation fails with an error, and schedule-object initialization
propagates that failure, so no downstream computation proceeds; moreover
the error message identifies the offending field: a zero principal is
reported as the principal invariant, and a term exceeding the amortization
(with the earlier-checked fields in range) as the term/amortization
invariant. -/
theorem validation_rejects_invalid_params (p : MortgageParams)
    (h : p.amort_years < p.term_years ∨ p.principal = 0) :
    (∃ e, p.validate = Except.error e) ∧
      (∀ v, mortgage_schedule_init p ≠ Except.ok v) ∧
      (p.principal = 0 →
        p.validate = Except.error (r"Principal must be positive.")) ∧
      (0 < p.principal → 0 ≤ p.quoted_rate_percent → 0 < p.amort_years →
        p.amort_years < p.term_years →
        p.validate =
          Except.error (r"Term years cannot exceed amortization years.")) := by
  have hv : ∃ e, p.validate = Except.error e := by
    unfold MortgageParams.validate
    split_ifs with h1 h2 h3 h4 h5
    · exact ⟨_, rfl⟩
    · exact ⟨_, rfl⟩
    · exact ⟨_, rfl⟩
    · exact ⟨_, rfl⟩
    · exact ⟨_, rfl⟩
    · rcases h with h | h
      · exact absurd h (not_lt.mpr (not_lt.mp h5))
      · exact absurd (h ▸ le_refl (0 : ℚ)) h1
  obtain ⟨e, he⟩ := hv
  refine ⟨⟨e, he⟩, fun v hvv => ?_, fun h0 => ?_, fun hP hq hA hTA => ?_⟩
  · rw [mortgage_schedule_init, he] at hvv
    exact Except.noConfusion hvv
  · unfold MortgageParams.validate
    rw [if_pos (le_of_eq h0)]
  · unfold MortgageParams.validate
    rw [if_neg (not_le.mpr hP), if_neg (not_lt.mpr hq),
      if_neg (not_le.mpr hA), if_neg (not_le.mpr (lt_trans hA hTA)),
      if_pos hTA]

/-- Witness for C1 at the concrete parameter set
(principal 1, rate 0, amortization 1 year, term 2 years). -/
theorem validation_rejects_invalid_params_witness :
    (∃ e, (MortgageParams.mk 1 0 1 2).validate = Except.error e) ∧
      (∀ v, mortgage_schedule_init (MortgageParams.mk 1 0 1 2) ≠ Except.ok v) ∧
      ((MortgageParams.mk 1 0 1 2).principal = 0 →
        (MortgageParams.mk 1 0 1 2).validate =
          Except.error (r"Principal must be positive.")) ∧
      (0 < (MortgageParams.mk 1 0 1 2).principal →
        0 ≤ (MortgageParams.mk 1 0 1 2).quoted_rate_percent →
        0 < (MortgageParams.mk 1 0 1 2).amort_years →
        (MortgageParams.mk 1 0 1 2).amort_years <
          (MortgageParams.mk 1 0 1 2).term_years →
        (MortgageParams.mk 1 0 1 2).validate =
          Except.error (r"Term years cannot exceed amortization years.")) :=
  validation_rejects_invalid_params (MortgageParams.mk 1 0 1 2)
    (Or.inl (by decide))

/-! ## C8: the present-value annuity factor -/

/-- C8: the annuity factor is `n` exactly at rate zero — so the general
formula's division by the rate is only ever taken at a nonzero rate — and is
the standard formula `(1 - (1+rate)^(-n)) / rate` at every nonzero rate. -/
theorem pva_zero_rate_and_formula :
    (∀ n : ℤ, pva 0 n = (n : ℝ)) ∧
      ∀ (rate : ℝ) (n : ℤ), rate ≠ 0 →
        pva rate n = (1 - (1 + rate) ^ (-n)) / rate := by
  constructor
  · intro n; simp [pva]
  · intro rate n hr; simp [pva, hr]

/-- Witness for C8 at rate 0 with 12 periods and at rate 1 with 1 period. -/
theorem pva_zero_rate_and_formula_witness :
    pva 0 12 = ((12 : ℤ) : ℝ) ∧
      pva 1 1 = (1 - (1 + 1 : ℝ) ^ (-(1 : ℤ))) / 1 :=
  ⟨pva_zero_rate_and_formula.1 12, pva_zero_rate_and_formula.2 1 1 one_ne_zero⟩

/-! ## C9: the effective annual rate -/

/-- C9: on non-negative quotes the effective annual rate
`(1 + q/200)^2 - 1` is strictly monotone in the quoted rate, and vanishes
exactly at quote zero. -/
theorem ear_monotone_and_zero :
    (∀ a b : ℚ, 0 ≤ a → a < b →
        ear_from_semi_annual_quote a < ear_from_semi_annual_quote b) ∧
      ∀ q : ℚ, 0 ≤ q → (ear_from_semi_annual_quote q = 0 ↔ q = 0) := by
  constructor
  · intro a b ha hab
    unfold ear_from_semi_annual_quote
    nlinarith [mul_pos (sub_pos.mpr hab)
      (show (0 : ℚ) < 2 + a / 100 / 2 + b / 100 / 2 by linarith)]
  · intro q hq
    unfold ear_from_semi_annual_quote
    constructor
    · intro h
      nlinarith [sq_nonneg (q / 100 / 2)]
    · intro h; subst h; norm_num

/-- Witness for C9: monotonicity between quotes 0 and 1, and vanishing at 0. -/
theorem ear_monotone_and_zero_witness :
    ear_from_semi_annual_quote 0 < ear_from_semi_annual_quote 1 ∧
      (ear_from_semi_annual_quote 0 = 0 ↔ (0 : ℚ) = 0) :=
  ⟨ear_monotone_and_zero.1 0 1 le_rfl (by norm_num),
    ear_monotone_and_zero.2 0 le_rfl⟩

/-! ## One-step unfolding lemmas for the schedule loop -/

/-- Zero remaining periods produce no rows. -/
lemma scheduleLoop_zero (r payment : ℝ) (t : ℤ) (b : ℝ) :
    scheduleLoop r payment 0 t b = [] := rfl

/-- Unfolding lemma for the capped early-payoff branch (lines 113-118). -/
lemma scheduleLoop_succ_capped (r payment : ℝ) (fuel : ℕ) (t : ℤ) (b : ℝ)
    (h : payment - b * r > b) :
    scheduleLoop r payment (fuel + 1) t b = [⟨t, b, b * r, b + b * r, 0⟩] := by
  rw [scheduleLoop, if_pos h]

/-- Unfolding lemma for a normal period followed by the 0.01-floor stop
(lines 119-124). -/
lemma scheduleLoop_succ_stop (r payment : ℝ) (fuel : ℕ) (t : ℤ) (b : ℝ)
    (h1 : ¬ payment - b * r > b) (h2 : b - (payment - b * r) ≤ 0.01) :
    scheduleLoop r payment (fuel + 1) t b =
      [⟨t, b, b * r, payment, b - (payment - b * r)⟩] := by
  rw [scheduleLoop, if_neg h1, if_pos h2]

/-- Unfolding lemma for a normal period that continues looping. -/
lemma scheduleLoop_succ_cons (r payment : ℝ) (fuel : ℕ) (t : ℤ) (b : ℝ)
    (h1 : ¬ payment - b * r > b) (h2 : ¬ b - (payment - b * r) ≤ 0.01) :
    scheduleLoop r payment (fuel + 1) t b =
      ⟨t, b, b * r, payment, b - (payment - b * r)⟩ ::
        scheduleLoop r payment fuel (t + 1) (b - (payment - b * r)) := by
  rw [scheduleLoop, if_neg h1, if_neg h2]

/-! ## Structural lemmas about the schedule loop -/

/-- The loop records at most one row per remaining period. -/
lemma scheduleLoop_length_le (r payment : ℝ) :
    ∀ (fuel : ℕ) (t : ℤ) (b : ℝ),
      (scheduleLoop r payment fuel t b).length ≤ fuel := by
  intro fuel
  induction fuel with
  | zero => intro t b; rw [scheduleLoop_zero]; simp
  | succ k ih =>
    intro t b
    by_cases h1 : payment - b * r > b
    · rw [scheduleLoop_succ_capped r payment k t b h1]; simp
    · by_cases h2 : b - (payment - b * r) ≤ 0.01
      · rw [scheduleLoop_succ_stop r payment k t b h1 h2]; simp
      · rw [scheduleLoop_succ_cons r payment k t b h1 h2]
        simpa using ih (t + 1) (b - (payment - b * r))

/-- Every recorded ending balance is non-negative and bounded by the balance
the loop started from, provided the rate is non-negative and the payment
covers the interest on the starting balance. -/
lemma scheduleLoop_endBalance_bounds (r payment : ℝ) (hr : 0 ≤ r) :
    ∀ (fuel : ℕ) (t : ℤ) (b : ℝ), 0 ≤ b → b * r ≤ payment →
      ∀ row ∈ scheduleLoop r payment fuel t b,
        0 ≤ row.endBalance ∧ row.endBalance ≤ b := by
  intro fuel
  induction fuel with
  | zero => intro t b _ _ row hrow; rw [scheduleLoop_zero] at hrow; cases hrow
  | succ k ih =>
    intro t b hb hbp row hrow
    by_cases h1 : payment - b * r > b
    · rw [scheduleLoop_succ_capped r payment k t b h1] at hrow
      rcases List.mem_singleton.mp hrow with rfl
      exact ⟨le_refl 0, hb⟩
    · by_cases h2 : b - (payment - b * r) ≤ 0.01
      · rw [scheduleLoop_succ_stop r payment k t b h1 h2] at hrow
        rcases List.mem_singleton.mp hrow with rfl
        constructor
        · simp only []
          push_neg at h1
          linarith
        · simp only []
          linarith [hbp]
      · rw [scheduleLoop_succ_cons r payment k t b h1 h2] at hrow
        push_neg at h1
        have hb' : 0 ≤ b - (payment - b * r) := by linarith
        have hle : b - (payment - b * r) ≤ b := by linarith [hbp]
        rcases List.mem_cons.mp hrow with rfl | htail
        · exact ⟨hb', hle⟩
        · have hbp' : (b - (payment - b * r)) * r ≤ payment :=
            le_trans (mul_le_mul_of_nonneg_right hle hr) hbp
          obtain ⟨h0, hup⟩ := ih (t + 1) (b - (payment - b * r)) hb' hbp' row htail
          exact ⟨h0, le_trans hup hle⟩

/-- The sequence of recorded ending balances is non-increasing, provided the
rate is non-negative and the payment covers the interest on the starting
balance. -/
lemma scheduleLoop_chain (r payment : ℝ) (hr : 0 ≤ r) :
    ∀ (fuel : ℕ) (t : ℤ) (b : ℝ), 0 ≤ b → b * r ≤ payment →
      List.Chain' (fun x y => y.endBalance ≤ x.endBalance)
        (scheduleLoop r payment fuel t b) := by
  intro fuel
  induction fuel with
  | zero => intro t b _ _; rw [scheduleLoop_zero]; exact List.chain'_nil
  | succ k ih =>
    intro t b hb hbp
    by_cases h1 : payment - b * r > b
    · rw [scheduleLoop_succ_capped r payment k t b h1]
      exact List.chain'_singleton _
    · by_cases h2 : b - (payment - b * r) ≤ 0.01
      · rw [scheduleLoop_succ_stop r payment k t b h1 h2]
        exact List.chain'_singleton _
      · rw [scheduleLoop_succ_cons r payment k t b h1 h2]
        push_neg at h1
        have hb' : 0 ≤ b - (payment - b * r) := by linarith
        have hbp' : (b - (payment - b * r)) * r ≤ payment :=
          le_trans (mul_le_mul_of_nonneg_right (by linarith [hbp]) hr) hbp
        rw [List.chain'_cons']
        refine ⟨fun y hy => ?_, ih (t + 1) _ hb' hbp'⟩
        have hmem : y ∈ scheduleLoop r payment k (t + 1) (b - (payment - b * r)) :=
          List.mem_of_mem_head? hy
        exact (scheduleLoop_endBalance_bounds r payment hr k (t + 1) _ hb' hbp'
          y hmem).2

/-- Any row whose recorded ending balance is at most the 0.01 floor is the
last recorded row. -/
lemma scheduleLoop_lowbal_last (r payment : ℝ) :
    ∀ (fuel : ℕ) (t : ℤ) (b : ℝ) (i : ℕ) (row : ScheduleRow),
      (scheduleLoop r payment fuel t b).get? i = some row →
        row.endBalance ≤ 0.01 →
          i + 1 = (scheduleLoop r payment fuel t b).length := by
  intro fuel
  induction fuel with
  | zero =>
    intro t b i row hrow
    rw [scheduleLoop_zero] at hrow
    simp at hrow
  | succ k ih =>
    intro t b i row hrow hle
    by_cases h1 : payment - b * r > b
    · rw [scheduleLoop_succ_capped r payment k t b h1] at hrow ⊢
      cases i with
      | zero => simp
      | succ j => simp at hrow
    · by_cases h2 : b - (payment - b * r) ≤ 0.01
      · rw [scheduleLoop_succ_stop r payment k t b h1 h2] at hrow ⊢
        cases i with
        | zero => simp
        | succ j => simp at hrow
      · rw [scheduleLoop_succ_cons r payment k t b h1 h2] at hrow ⊢
        cases i with
        | zero =>
          simp only [List.get?_cons_zero, Option.some.injEq] at hrow
          rw [← hrow] at hle
          exact absurd hle h2
        | succ j =>
          simp only [List.get?_cons_succ] at hrow
          have := ih (t + 1) (b - (payment - b * r)) j row hrow hle
          simp only [List.length_cons]
          omega

/-- A period in which the scheduled payment net of interest would overpay
the remaining balance is recorded with payment capped at balance plus
interest, zero ending balance, and is the last recorded row. -/
lemma scheduleLoop_capped_row (r payment : ℝ) :
    ∀ (fuel : ℕ) (t : ℤ) (b : ℝ) (i : ℕ) (row : ScheduleRow),
      (scheduleLoop r payment fuel t b).get? i = some row →
        payment - row.interest > row.startBalance →
          row.payment = row.startBalance + row.interest ∧
            row.endBalance = 0 ∧
            i + 1 = (scheduleLoop r payment fuel t b).length := by
  intro fuel
  induction fuel with
  | zero =>
    intro t b i row hrow
    rw [scheduleLoop_zero] at hrow
    simp at hrow
  | succ k ih =>
    intro t b i row hrow hover
    by_cases h1 : payment - b * r > b
    · rw [scheduleLoop_succ_capped r payment k t b h1] at hrow ⊢
      cases i with
      | zero =>
        simp only [List.get?_cons_zero, Option.some.injEq] at hrow
        rw [← hrow]
        exact ⟨rfl, rfl, by simp⟩
      | succ j => simp at hrow
    · by_cases h2 : b - (payment - b * r) ≤ 0.01
      · rw [scheduleLoop_succ_stop r payment k t b h1 h2] at hrow ⊢
        cases i with
        | zero =>
          simp only [List.get?_cons_zero, Option.some.injEq] at hrow
          rw [← hrow] at hover
          exact absurd hover h1
        | succ j => simp at hrow
      · rw [scheduleLoop_succ_cons r payment k t b h1 h2] at hrow ⊢
        cases i with
        | zero =>
          simp only [List.get?_cons_zero, Option.some.injEq] at hrow
          rw [← hrow] at hover
          exact absurd hover h1
        | succ j =>
          simp only [List.get?_cons_succ] at hrow
          obtain ⟨ha, hb0, hlen⟩ :=
            ih (t + 1) (b - (payment - b * r)) j row hrow hover
          refine ⟨ha, hb0, ?_⟩
          simp only [List.length_cons]
          omega

/-- Every recorded row satisfies the accounting identities: interest is the
starting balance times the periodic rate, and the balance decreases by
exactly the principal portion of the recorded payment. -/
lemma scheduleLoop_row_identity (r payment : ℝ) :
    ∀ (fuel : ℕ) (t : ℤ) (b : ℝ), ∀ row ∈ scheduleLoop r payment fuel t b,
      row.interest = row.startBalance * r ∧
        row.startBalance - row.endBalance = row.payment - row.interest := by
  intro fuel
  induction fuel with
  | zero => intro t b row hrow; rw [scheduleLoop_zero] at hrow; cases hrow
  | succ k ih =>
    intro t b row hrow
    by_cases h1 : payment - b * r > b
    · rw [scheduleLoop_succ_capped r payment k t b h1] at hrow
      rcases List.mem_singleton.mp hrow with rfl
      exact ⟨rfl, by ring⟩
    · by_cases h2 : b - (payment - b * r) ≤ 0.01
      · rw [scheduleLoop_succ_stop r payment k t b h1 h2] at hrow
        rcases List.mem_singleton.mp hrow with rfl
        exact ⟨rfl, by ring⟩
      · rw [scheduleLoop_succ_cons r payment k t b h1 h2] at hrow
        rcases List.mem_cons.mp hrow with rfl | htail
        · exact ⟨rfl, by ring⟩
        · exact ih (t + 1) (b - (payment - b * r)) row htail

/-- The first recorded row starts at the balance the loop was entered with. -/
lemma scheduleLoop_head_start (r payment : ℝ) :
    ∀ (fuel : ℕ) (t : ℤ) (b : ℝ) (row : ScheduleRow),
      (scheduleLoop r payment fuel t b).get? 0 = some row →
        row.startBalance = b := by
  intro fuel
  induction fuel with
  | zero =>
    intro t b row hrow
    rw [scheduleLoop_zero] at hrow
    simp at hrow
  | succ k _ =>
    intro t b row hrow
    by_cases h1 : payment - b * r > b
    · rw [scheduleLoop_succ_capped r payment k t b h1] at hrow
      simp only [List.get?_cons_zero, Option.some.injEq] at hrow
      rw [← hrow]
    · by_cases h2 : b - (payment - b * r) ≤ 0.01
      · rw [scheduleLoop_succ_stop r payment k t b h1 h2] at hrow
        simp only [List.get?_cons_zero, Option.some.injEq] at hrow
        rw [← hrow]
      · rw [scheduleLoop_succ_cons r payment k t b h1 h2] at hrow
        simp only [List.get?_cons_zero, Option.some.injEq] at hrow
        rw [← hrow]

/-- Each subsequent row starts at the previous row's ending balance. -/
lemma scheduleLoop_consecutive (r payment : ℝ) :
    ∀ (fuel : ℕ) (t : ℤ) (b : ℝ) (i : ℕ) (row row' : ScheduleRow),
      (scheduleLoop r payment fuel t b).get? i = some row →
        (scheduleLoop r payment fuel t b).get? (i + 1) = some row' →
          row'.startBalance = row.endBalance := by
  intro fuel
  induction fuel with
  | zero =>
    intro t b i row row' hrow
    rw [scheduleLoop_zero] at hrow
    simp at hrow
  | succ k ih =>
    intro t b i row row' hrow hrow'
    by_cases h1 : payment - b * r > b
    · rw [scheduleLoop_succ_capped r payment k t b h1] at hrow hrow'
      cases i with
      | zero => simp at hrow'
      | succ j => simp at hrow
    · by_cases h2 : b - (payment - b * r) ≤ 0.01
      · rw [scheduleLoop_succ_stop r payment k t b h1 h2] at hrow hrow'
        cases i with
        | zero => simp at hrow'
        | succ j => simp at hrow
      · rw [scheduleLoop_succ_cons r payment k t b h1 h2] at hrow hrow'
        cases i with
        | zero =>
          simp only [List.get?_cons_zero, Option.some.injEq] at hrow
          simp only [List.get?_cons_succ] at hrow'
          rw [← hrow]
          exact scheduleLoop_head_start r payment k (t + 1)
            (b - (payment - b * r)) row' hrow'
        | succ j =>
          simp only [List.get?_cons_succ] at hrow hrow'
          exact ih (t + 1) (b - (payment - b * r)) j row row' hrow hrow'

/-! ## The frequency table and `build_schedule_df` dispatch -/

/-- The frequency lookup misses exactly on keys outside the six-variant set. -/
lemma FREQS_none_iff (key : String) : FREQS key = none ↔ key ∉ six_keys := by
  unfold FREQS six_keys
  split_ifs with h1 h2 h3 h4 h5 h6 <;> simp_all

/-- A successful frequency lookup forces the key to be one of the six
variants, with its documented payments-per-year count. -/
lemma FREQS_cases (key : String) (m : ℤ) (label : String)
    (h : FREQS key = some (m, label)) :
    (key = "monthly" ∧ m = 12) ∨ (key = "semi_monthly" ∧ m = 24) ∨
      (key = "bi_weekly" ∧ m = 26) ∨ (key = "weekly" ∧ m = 52) ∨
      (key = "rapid_biweekly" ∧ m = 26) ∨ (key = "rapid_weekly" ∧ m = 52) := by
  unfold FREQS at h
  split_ifs at h with h1 h2 h3 h4 h5 h6 <;> simp_all

/-- On a missing key the builder fails with the lookup error (line 98). -/
lemma build_schedule_df_none (p : MortgageParams) (key : String)
    (h : FREQS key = none) :
    build_schedule_df p key = Except.error (r"Unknown frequency: " ++ key) := by
  unfold build_schedule_df
  rw [h]

/-- On a recognized key the builder returns the loop's rows with the key's
label and payments-per-year. -/
lemma build_schedule_df_some (p : MortgageParams) (key : String) (m : ℤ)
    (label : String) (h : FREQS key = some (m, label)) :
    build_schedule_df p key =
      Except.ok
        (scheduleLoop
            (periodic_rate (ear_from_semi_annual_quote p.quoted_rate_percent : ℝ) m)
            (schedule_payment p key m)
            (p.term_years * m).toNat 1 (p.principal : ℝ),
          label, m) := by
  unfold build_schedule_df
  rw [h]

/-- Inversion: a successful build determines the lookup result and the rows. -/
lemma build_ok_elim (p : MortgageParams) (key : String) (rows : List ScheduleRow)
    (label : String) (m : ℤ)
    (h : build_schedule_df p key = Except.ok (rows, label, m)) :
    FREQS key = some (m, label) ∧
      rows = scheduleLoop
          (periodic_rate (ear_from_semi_annual_quote p.quoted_rate_percent : ℝ) m)
          (schedule_payment p key m)
          (p.term_years * m).toNat 1 (p.principal : ℝ) := by
  cases hF : FREQS key with
  | none =>
    rw [build_schedule_df_none p key hF] at h
    exact Except.noConfusion h
  | some pr =>
    obtain ⟨m', label'⟩ := pr
    rw [build_schedule_df_some p key m' label' hF] at h
    simp only [Except.ok.injEq, Prod.mk.injEq] at h
    obtain ⟨hrows, rfl, rfl⟩ := h
    exact ⟨rfl, hrows.symm⟩

/-- C7: requesting any key outside the six-variant set yields the lookup
error (and hence no rows), and recognized keys never error — the lookup is
the builder's only error condition. -/
theorem unknown_frequency_error (p : MortgageParams) (key : String) :
    (key ∉ six_keys →
        build_schedule_df p key = Except.error (r"Unknown frequency: " ++ key)) ∧
      (key ∈ six_keys → ∀ e, build_schedule_df p key ≠ Except.error e) := by
  constructor
  · intro hk
    exact build_schedule_df_none p key ((FREQS_none_iff key).mpr hk)
  · intro hk e hbad
    cases hF : FREQS key with
    | none => exact ((FREQS_none_iff key).mp hF) hk
    | some pr =>
      obtain ⟨m, label⟩ := pr
      rw [build_schedule_df_some p key m label hF] at hbad
      exact Except.noConfusion hbad

/-- Witness for C7: the key `daily` errors, and `monthly` never errors. -/
theorem unknown_frequency_error_witness :
    build_schedule_df sampleParams (r"daily") =
        Except.error (r"Unknown frequency: " ++ r"daily") ∧
      build_schedule_df sampleParams (r"monthly") ≠ Except.error (r"oops") :=
  ⟨(unknown_frequency_error sampleParams (r"daily")).1 (by decide),
    (unknown_frequency_error sampleParams (r"monthly")).2 (by decide) (r"oops")⟩

/-! ## Build-level structural claims -/

/-- C6: the number of rows never exceeds `term_years * m`, the term's
period count for the requested frequency. -/
theorem schedule_length_bound (p : MortgageParams) (key : String)
    (hp : p.validate = Except.ok ()) (rows : List ScheduleRow)
    (label : String) (m : ℤ)
    (h : build_schedule_df p key = Except.ok (rows, label, m)) :
    (rows.length : ℤ) ≤ p.term_years * m := by
  obtain ⟨hF, hrows⟩ := build_ok_elim p key rows label m h
  have hlen : rows.length ≤ (p.term_years * m).toNat := by
    rw [hrows]
    exact scheduleLoop_length_le _ _ _ _ _
  have hm : 0 < m := by
    rcases FREQS_cases key m label hF with ⟨-, rfl⟩ | ⟨-, rfl⟩ | ⟨-, rfl⟩ |
      ⟨-, rfl⟩ | ⟨-, rfl⟩ | ⟨-, rfl⟩ <;> norm_num
  have hterm : 0 < p.term_years := ((validate_ok_iff p).mp hp).2.2.2.1
  have hnn : 0 ≤ p.term_years * m := mul_nonneg (le_of_lt hterm) (le_of_lt hm)
  omega

/-- C5: any recorded row whose ending balance is at most the 0.01
currency floor is the schedule's last row — the loop stops there. -/
theorem low_balance_terminates (p : MortgageParams) (key : String)
    (_hp : p.validate = Except.ok ()) (rows : List ScheduleRow)
    (label : String) (m : ℤ)
    (h : build_schedule_df p key = Except.ok (rows, label, m))
    (i : ℕ) (hi : i < rows.length)
    (hle : (rows.get ⟨i, hi⟩).endBalance ≤ 0.01) :
    i + 1 = rows.length := by
  obtain ⟨hF, hrows⟩ := build_ok_elim p key rows label m h
  subst hrows
  exact scheduleLoop_lowbal_last _ _ _ _ _ i _ (List.get?_eq_get hi) hle

/-- C3: in a period where the scheduled payment net of interest would
overpay the remaining balance, the recorded payment is capped at balance
plus interest, the ending balance is exactly zero, and the row is the last
one recorded. -/
theorem capped_final_period (p : MortgageParams) (key : String)
    (_hp : p.validate = Except.ok ()) (rows : List ScheduleRow)
    (label : String) (m : ℤ)
    (h : build_schedule_df p key = Except.ok (rows, label, m))
    (i : ℕ) (hi : i < rows.length)
    (hover : schedule_payment p key m - (rows.get ⟨i, hi⟩).interest >
        (rows.get ⟨i, hi⟩).startBalance) :
    (rows.get ⟨i, hi⟩).payment =
        (rows.get ⟨i, hi⟩).startBalance + (rows.get ⟨i, hi⟩).interest ∧
      (rows.get ⟨i, hi⟩).endBalance = 0 ∧ i + 1 = rows.length := by
  obtain ⟨hF, hrows⟩ := build_ok_elim p key rows label m h
  subst hrows
  exact scheduleLoop_capped_row _ _ _ _ _ i _ (List.get?_eq_get hi) hover

/-- C10: every recorded row satisfies the per-row accounting identity —
interest is the starting balance times the periodic rate and the balance
drops by the principal portion — the first row starts at the principal, and
each subsequent row starts at the previous row's ending balance. -/
theorem schedule_row_accounting (p : MortgageParams) (key : String)
    (_hp : p.validate = Except.ok ()) (rows : List ScheduleRow)
    (label : String) (m : ℤ)
    (h : build_schedule_df p key = Except.ok (rows, label, m)) :
    (∀ (i : ℕ) (hi : i < rows.length),
        (rows.get ⟨i, hi⟩).interest =
            (rows.get ⟨i, hi⟩).startBalance *
              periodic_rate (ear_from_semi_annual_quote p.quoted_rate_percent : ℝ) m ∧
          (rows.get ⟨i, hi⟩).startBalance - (rows.get ⟨i, hi⟩).endBalance =
            (rows.get ⟨i, hi⟩).payment - (rows.get ⟨i, hi⟩).interest) ∧
      (∀ h0 : 0 < rows.length,
        (rows.get ⟨0, h0⟩).startBalance = (p.principal : ℝ)) ∧
      ∀ (i : ℕ) (hi : i + 1 < rows.length),
        (rows.get ⟨i + 1, hi⟩).startBalance =
          (rows.get ⟨i, Nat.lt_of_succ_lt hi⟩).endBalance := by
  obtain ⟨hF, hrows⟩ := build_ok_elim p key rows label m h
  subst hrows
  refine ⟨fun i hi => ?_, fun h0 => ?_, fun i hi => ?_⟩
  · exact scheduleLoop_row_identity _ _ _ _ _ _ (List.get_mem _ _ _)
  · exact scheduleLoop_head_start _ _ _ _ _ _ (List.get?_eq_get h0)
  · exact scheduleLoop_consecutive _ _ _ _ _ i _ _
      (List.get?_eq_get (Nat.lt_of_succ_lt hi)) (List.get?_eq_get hi)

/-! ## Interest coverage: the scheduled payment covers one period's interest -/

/-- The effective annual rate is non-negative on non-negative quotes. -/
lemma ear_nonneg (q : ℚ) (hq : 0 ≤ q) : 0 ≤ ear_from_semi_annual_quote q := by
  unfold ear_from_semi_annual_quote
  nlinarith [sq_nonneg (q / 100 / 2)]

/-- The periodic rate is non-negative for a non-negative effective annual
rate and a positive frequency. -/
lemma periodic_rate_nonneg (ear : ℝ) (he : 0 ≤ ear) (m : ℤ) (hm : 1 ≤ m) :
    0 ≤ periodic_rate ear m := by
  unfold periodic_rate
  have hx : (1 : ℝ) ≤ 1 + ear := by linarith
  have hm' : (1 : ℝ) ≤ (m : ℝ) := by exact_mod_cast hm
  have hy : (0 : ℝ) ≤ (1 : ℝ) / (m : ℝ) := by positivity
  have h1 : (1 + ear) ^ (0 : ℝ) ≤ (1 + ear) ^ ((1 : ℝ) / (m : ℝ)) :=
    Real.rpow_le_rpow_of_exponent_le hx hy
  rw [Real.rpow_zero] at h1
  linarith

/-- The annuity factor is positive for non-negative rates and at least one
period. -/
lemma pva_pos (r : ℝ) (n : ℤ) (hr : 0 ≤ r) (hn : 1 ≤ n) : 0 < pva r n := by
  unfold pva
  split_ifs with h
  · have : (1 : ℝ) ≤ (n : ℝ) := by exact_mod_cast hn
    linarith
  · have hr' : 0 < r := lt_of_le_of_ne hr (Ne.symm h)
    have h1 : (1 : ℝ) < 1 + r := by linarith
    have h2 : (1 : ℝ) < (1 + r) ^ n := one_lt_zpow₀ h1 (by omega)
    have h3 : (1 + r) ^ (-n) < 1 := by
      rw [zpow_neg]
      exact inv_lt_one_of_one_lt₀ h2
    have hnum : 0 < 1 - (1 + r) ^ (-n) := by linarith
    exact div_pos hnum hr'

/-- The rate times the annuity factor never exceeds one. -/
lemma rate_mul_pva_le_one (r : ℝ) (n : ℤ) (hr : 0 ≤ r) :
    r * pva r n ≤ 1 := by
  rcases hr.eq_or_lt with rfl | hr'
  · simp
  · unfold pva
    rw [if_neg hr'.ne']
    rw [mul_div_cancel₀ _ hr'.ne']
    have hz : 0 ≤ (1 + r) ^ (-n) := zpow_nonneg (by linarith) _
    linarith

/-- A level payment `P / pva r n` always covers one period's interest on
the full principal. -/
lemma payment_covers_interest (P r : ℝ) (n : ℤ) (hP : 0 < P) (hr : 0 ≤ r)
    (hn : 1 ≤ n) : P * r ≤ P / pva r n := by
  have hpva : 0 < pva r n := pva_pos r n hr hn
  rw [le_div_iff₀ hpva]
  calc P * r * pva r n = P * (r * pva r n) := by ring
    _ ≤ P * 1 := mul_le_mul_of_nonneg_left (rate_mul_pva_le_one r n hr) hP.le
    _ = P := mul_one P

/-- Doubling the 26-periods-per-year rate never exceeds the 12-periods rate:
with `u = a^(1/26) ≥ 1`, `a^(1/12) = u^(26/12) ≥ u² ≥ 1 + 2(u-1)`. -/
lemma rate_half_bound (a : ℝ) (ha : 1 ≤ a) :
    2 * (a ^ ((1 : ℝ) / 26) - 1) ≤ a ^ ((1 : ℝ) / 12) - 1 := by
  have ha0 : (0 : ℝ) ≤ a := by linarith
  have hu : (1 : ℝ) ≤ a ^ ((1 : ℝ) / 26) := by
    calc (1 : ℝ) = a ^ (0 : ℝ) := (Real.rpow_zero a).symm
      _ ≤ a ^ ((1 : ℝ) / 26) := Real.rpow_le_rpow_of_exponent_le ha (by norm_num)
  have key : a ^ ((1 : ℝ) / 12) = (a ^ ((1 : ℝ) / 26)) ^ ((26 : ℝ) / 12) := by
    rw [← Real.rpow_mul ha0]
    norm_num
  have h2 : (a ^ ((1 : ℝ) / 26)) ^ (2 : ℝ) ≤ (a ^ ((1 : ℝ) / 26)) ^ ((26 : ℝ) / 12) :=
    Real.rpow_le_rpow_of_exponent_le hu (by norm_num)
  rw [Real.rpow_two] at h2
  rw [key]
  nlinarith [h2, sq_nonneg (a ^ ((1 : ℝ) / 26) - 1)]

/-- Quadrupling the 52-periods-per-year rate never exceeds the 12-periods
rate: with `u = a^(1/52) ≥ 1`, `a^(1/12) = u^(52/12) ≥ u⁴ ≥ 1 + 4(u-1)`. -/
lemma rate_quarter_bound (a : ℝ) (ha : 1 ≤ a) :
    4 * (a ^ ((1 : ℝ) / 52) - 1) ≤ a ^ ((1 : ℝ) / 12) - 1 := by
  have ha0 : (0 : ℝ) ≤ a := by linarith
  have hu : (1 : ℝ) ≤ a ^ ((1 : ℝ) / 52) := by
    calc (1 : ℝ) = a ^ (0 : ℝ) := (Real.rpow_zero a).symm
      _ ≤ a ^ ((1 : ℝ) / 52) := Real.rpow_le_rpow_of_exponent_le ha (by norm_num)
  have key : a ^ ((1 : ℝ) / 12) = (a ^ ((1 : ℝ) / 52)) ^ ((52 : ℝ) / 12) := by
    rw [← Real.rpow_mul ha0]
    norm_num
  have h2 : (a ^ ((1 : ℝ) / 52)) ^ (4 : ℝ) ≤ (a ^ ((1 : ℝ) / 52)) ^ ((52 : ℝ) / 12) :=
    Real.rpow_le_rpow_of_exponent_le hu (by norm_num)
  have h3 : ((4 : ℝ)) = ((4 : ℕ) : ℝ) := by norm_num
  rw [h3, Real.rpow_natCast] at h2
  rw [key]
  nlinarith [h2, mul_nonneg (sq_nonneg (a ^ ((1 : ℝ) / 52) - 1))
    (show (0 : ℝ) ≤ (a ^ ((1 : ℝ) / 52)) ^ 2 + 2 * a ^ ((1 : ℝ) / 52) + 3 by
      nlinarith [sq_nonneg (a ^ ((1 : ℝ) / 52) + 1)])]

/-- An ordinary level payment covers one period's interest on the
principal. -/
lemma ordinary_payment_covers (P q : ℚ) (amort m : ℤ) (hP : 0 < P)
    (hq : 0 ≤ q) (ha : 1 ≤ amort) (hm : 1 ≤ m) :
    (P : ℝ) * periodic_rate (ear_from_semi_annual_quote q : ℝ) m ≤
      level_payment P q amort m := by
  have hP' : (0 : ℝ) < (P : ℝ) := by exact_mod_cast hP
  have he : (0 : ℝ) ≤ (ear_from_semi_annual_quote q : ℝ) := by
    exact_mod_cast ear_nonneg q hq
  have hn : 1 ≤ amort * m := by nlinarith [mul_nonneg (by linarith : (0 : ℤ) ≤ amort - 1) (by linarith : (0 : ℤ) ≤ m)]
  exact payment_covers_interest _ _ _ hP'
    (periodic_rate_nonneg _ he m hm) hn

/-- Half the standard monthly payment covers one bi-weekly period's
interest on the principal. -/
lemma rapid_biweekly_covers (P q : ℚ) (amort : ℤ) (hP : 0 < P) (hq : 0 ≤ q)
    (ha : 1 ≤ amort) :
    (P : ℝ) * periodic_rate (ear_from_semi_annual_quote q : ℝ) 26 ≤
      level_payment P q amort 12 / 2 := by
  have hP' : (0 : ℝ) < (P : ℝ) := by exact_mod_cast hP
  have he : (0 : ℝ) ≤ (ear_from_semi_annual_quote q : ℝ) := by
    exact_mod_cast ear_nonneg q hq
  have ha1 : (1 : ℝ) ≤ 1 + (ear_from_semi_annual_quote q : ℝ) := by linarith
  have hr26 : periodic_rate (ear_from_semi_annual_quote q : ℝ) 26 ≤
      periodic_rate (ear_from_semi_annual_quote q : ℝ) 12 / 2 := by
    unfold periodic_rate
    push_cast
    linarith [rate_half_bound (1 + (ear_from_semi_annual_quote q : ℝ)) ha1]
  have hpay := ordinary_payment_covers P q amort 12 hP hq ha (by norm_num)
  have hr12 : 0 ≤ periodic_rate (ear_from_semi_annual_quote q : ℝ) 12 :=
    periodic_rate_nonneg _ he 12 (by norm_num)
  calc (P : ℝ) * periodic_rate (ear_from_semi_annual_quote q : ℝ) 26
      ≤ (P : ℝ) * (periodic_rate (ear_from_semi_annual_quote q : ℝ) 12 / 2) :=
        mul_le_mul_of_nonneg_left hr26 hP'.le
    _ = ((P : ℝ) * periodic_rate (ear_from_semi_annual_quote q : ℝ) 12) / 2 := by
        ring
    _ ≤ level_payment P q amort 12 / 2 := by linarith

/-- A quarter of the standard monthly payment covers one weekly period's
interest on the principal. -/
lemma rapid_weekly_covers (P q : ℚ) (amort : ℤ) (hP : 0 < P) (hq : 0 ≤ q)
    (ha : 1 ≤ amort) :
    (P : ℝ) * periodic_rate (ear_from_semi_annual_quote q : ℝ) 52 ≤
      level_payment P q amort 12 / 4 := by
  have hP' : (0 : ℝ) < (P : ℝ) := by exact_mod_cast hP
  have he : (0 : ℝ) ≤ (ear_from_semi_annual_quote q : ℝ) := by
    exact_mod_cast ear_nonneg q hq
  have ha1 : (1 : ℝ) ≤ 1 + (ear_from_semi_annual_quote q : ℝ) := by linarith
  have hr52 : periodic_rate (ear_from_semi_annual_quote q : ℝ) 52 ≤
      periodic_rate (ear_from_semi_annual_quote q : ℝ) 12 / 4 := by
    unfold periodic_rate
    push_cast
    linarith [rate_quarter_bound (1 + (ear_from_semi_annual_quote q : ℝ)) ha1]
  have hpay := ordinary_payment_covers P q amort 12 hP hq ha (by norm_num)
  have hr12 : 0 ≤ periodic_rate (ear_from_semi_annual_quote q : ℝ) 12 :=
    periodic_rate_nonneg _ he 12 (by norm_num)
  calc (P : ℝ) * periodic_rate (ear_from_semi_annual_quote q : ℝ) 52
      ≤ (P : ℝ) * (periodic_rate (ear_from_semi_annual_quote q : ℝ) 12 / 4) :=
        mul_le_mul_of_nonneg_left hr52 hP'.le
    _ = ((P : ℝ) * periodic_rate (ear_from_semi_annual_quote q : ℝ) 12) / 4 := by
        ring
    _ ≤ level_payment P q amort 12 / 4 := by linarith

/-- For valid parameters and a recognized key, the periodic rate is
non-negative and the scheduled payment covers one period's interest on the
principal. -/
lemma schedule_payment_covers (p : MortgageParams) (key : String)
    (hp : p.validate = Except.ok ()) (m : ℤ) (label : String)
    (hF : FREQS key = some (m, label)) :
    0 ≤ periodic_rate (ear_from_semi_annual_quote p.quoted_rate_percent : ℝ) m ∧
      (p.principal : ℝ) *
          periodic_rate (ear_from_semi_annual_quote p.quoted_rate_percent : ℝ) m ≤
        schedule_payment p key m := by
  obtain ⟨hP, hq, hA, hT, hTA⟩ := (validate_ok_iff p).mp hp
  have he : (0 : ℝ) ≤ (ear_from_semi_annual_quote p.quoted_rate_percent : ℝ) := by
    exact_mod_cast ear_nonneg _ hq
  rcases FREQS_cases key m label hF with ⟨rfl, rfl⟩ | ⟨rfl, rfl⟩ | ⟨rfl, rfl⟩ |
    ⟨rfl, rfl⟩ | ⟨rfl, rfl⟩ | ⟨rfl, rfl⟩
  · refine ⟨periodic_rate_nonneg _ he 12 (by norm_num), ?_⟩
    unfold schedule_payment
    rw [if_neg (by decide)]
    exact ordinary_payment_covers _ _ _ _ hP hq (by omega) (by norm_num)
  · refine ⟨periodic_rate_nonneg _ he 24 (by norm_num), ?_⟩
    unfold schedule_payment
    rw [if_neg (by decide)]
    exact ordinary_payment_covers _ _ _ _ hP hq (by omega) (by norm_num)
  · refine ⟨periodic_rate_nonneg _ he 26 (by norm_num), ?_⟩
    unfold schedule_payment
    rw [if_neg (by decide)]
    exact ordinary_payment_covers _ _ _ _ hP hq (by omega) (by norm_num)
  · refine ⟨periodic_rate_nonneg _ he 52 (by norm_num), ?_⟩
    unfold schedule_payment
    rw [if_neg (by decide)]
    exact ordinary_payment_covers _ _ _ _ hP hq (by omega) (by norm_num)
  · refine ⟨periodic_rate_nonneg _ he 26 (by norm_num), ?_⟩
    unfold schedule_payment standard_monthly_pmt
    rw [if_pos (by decide), if_pos (by decide)]
    exact rapid_biweekly_covers _ _ _ hP hq (by omega)
  · refine ⟨periodic_rate_nonneg _ he 52 (by norm_num), ?_⟩
    unfold schedule_payment standard_monthly_pmt
    rw [if_pos (by decide), if_neg (by decide)]
    exact rapid_weekly_covers _ _ _ hP hq (by omega)

/-- C4: for valid parameters and any recognized frequency, no recorded
ending balance is negative and the ending balances are monotonically
non-increasing. -/
theorem ending_balance_monotone_nonneg (p : MortgageParams) (key : String)
    (hp : p.validate = Except.ok ()) (rows : List ScheduleRow)
    (label : String) (m : ℤ)
    (h : build_schedule_df p key = Except.ok (rows, label, m)) :
    (∀ row ∈ rows, 0 ≤ row.endBalance) ∧
      List.Chain' (fun x y => y.endBalance ≤ x.endBalance) rows := by
  obtain ⟨hF, hrows⟩ := build_ok_elim p key rows label m h
  obtain ⟨hr, hpay⟩ := schedule_payment_covers p key hp m label hF
  have hP : 0 < p.principal := ((validate_ok_iff p).mp hp).1
  have hP' : (0 : ℝ) ≤ (p.principal : ℝ) := by positivity
  subst hrows
  constructor
  · intro row hrow
    exact (scheduleLoop_endBalance_bounds _ _ hr _ _ _ hP' hpay row hrow).1
  · exact scheduleLoop_chain _ _ hr _ _ _ hP' hpay

/-! ## C2: the rapid payment amounts -/

/-- C2: for valid parameters, the pre-rounding payment amount for the rapid
bi-weekly (resp. rapid weekly) variant is exactly half (resp. a quarter) of
the standard monthly payment — the level payment at 12 payments per year
over the full amortization period — and the schedule builder uses those
same derived amounts for the rapid schedules. -/
theorem rapid_payments_derived_from_monthly (p : MortgageParams)
    (_hp : p.validate = Except.ok ()) :
    payments_raw p (r"rapid_biweekly") = some (standard_monthly_pmt p / 2) ∧
      payments_raw p (r"rapid_weekly") = some (standard_monthly_pmt p / 4) ∧
      standard_monthly_pmt p =
        level_payment p.principal p.quoted_rate_percent p.amort_years 12 ∧
      schedule_payment p (r"rapid_biweekly") 26 = standard_monthly_pmt p / 2 ∧
      schedule_payment p (r"rapid_weekly") 52 = standard_monthly_pmt p / 4 := by
  refine ⟨?_, ?_, rfl, ?_, ?_⟩
  · simp [payments_raw]
  · simp [payments_raw]
  · simp [schedule_payment]
  · simp [schedule_payment]

/-- Witness for C2 at the sample parameter set. -/
theorem rapid_payments_derived_from_monthly_witness :
    payments_raw sampleParams (r"rapid_biweekly") =
        some (standard_monthly_pmt sampleParams / 2) ∧
      payments_raw sampleParams (r"rapid_weekly") =
        some (standard_monthly_pmt sampleParams / 4) ∧
      standard_monthly_pmt sampleParams =
        level_payment sampleParams.principal sampleParams.quoted_rate_percent
          sampleParams.amort_years 12 ∧
      schedule_payment sampleParams (r"rapid_biweekly") 26 =
        standard_monthly_pmt sampleParams / 2 ∧
      schedule_payment sampleParams (r"rapid_weekly") 52 =
        standard_monthly_pmt sampleParams / 4 :=
  rapid_payments_derived_from_monthly sampleParams
    ((validate_ok_iff sampleParams).mpr (by norm_num [sampleParams]))

/-! ## Concrete evaluation of the sample schedule (zero rate) -/

/-- The sample quote of zero gives a zero effective annual rate. -/
lemma sample_ear : ear_from_semi_annual_quote sampleParams.quoted_rate_percent = 0 := by
  norm_num [sampleParams, ear_from_semi_annual_quote]

/-- A zero effective annual rate gives a zero periodic rate at any
frequency. -/
lemma periodic_rate_of_zero (m : ℤ) : periodic_rate ((0 : ℚ) : ℝ) m = 0 := by
  unfold periodic_rate
  norm_num [Real.one_rpow]

/-- The sample monthly periodic rate is zero. -/
lemma sample_rate :
    periodic_rate (ear_from_semi_annual_quote sampleParams.quoted_rate_percent : ℝ) 12 = 0 := by
  rw [sample_ear]
  exact periodic_rate_of_zero 12

/-- The sample monthly payment is 0.001. -/
lemma sample_payment :
    schedule_payment sampleParams (r"monthly") 12 = 1 / 1000 := by
  unfold schedule_payment
  rw [if_neg (by decide)]
  unfold level_payment
  rw [sample_ear, periodic_rate_of_zero 12]
  simp only [pva, if_pos rfl, sampleParams]
  norm_num

/-- The sample monthly schedule is fully determined: two rows, the second
stopping at the 0.01 floor. -/
lemma sample_build :
    build_schedule_df sampleParams (r"monthly") =
      Except.ok
        ([⟨1, 3 / 250, 0, 1 / 1000, 11 / 1000⟩,
          ⟨2, 11 / 1000, 0, 1 / 1000, 1 / 100⟩], r"Monthly", 12) := by
  rw [build_schedule_df_some sampleParams (r"monthly") 12 (r"Monthly") (by decide)]
  rw [sample_rate, sample_payment]
  have ht : (sampleParams.term_years * 12).toNat = 12 := by decide
  have hb : ((sampleParams.principal : ℚ) : ℝ) = 3 / 250 := by
    norm_num [sampleParams]
  rw [ht, hb]
  have h1 : ¬ ((1 : ℝ) / 1000 - 3 / 250 * 0 > 3 / 250) := by norm_num
  have h2 : ¬ ((3 : ℝ) / 250 - (1 / 1000 - 3 / 250 * 0) ≤ 0.01) := by norm_num
  rw [show (12 : ℕ) = 11 + 1 from rfl,
    scheduleLoop_succ_cons 0 (1 / 1000) 11 1 (3 / 250) h1 h2]
  have h3 : ¬ ((1 : ℝ) / 1000 - (3 / 250 - (1 / 1000 - 3 / 250 * 0)) * 0 >
      3 / 250 - (1 / 1000 - 3 / 250 * 0)) := by norm_num
  have h4 : (3 : ℝ) / 250 - (1 / 1000 - 3 / 250 * 0) -
      (1 / 1000 - (3 / 250 - (1 / 1000 - 3 / 250 * 0)) * 0) ≤ 0.01 := by norm_num
  rw [show (11 : ℕ) = 10 + 1 from rfl,
    scheduleLoop_succ_stop 0 (1 / 1000) 10 (1 + 1)
      ((3 : ℝ) / 250 - (1 / 1000 - 3 / 250 * 0)) h3 h4]
  norm_num [ScheduleRow.mk.injEq]

/-! ## Concrete evaluation of the capped schedule (huge rate) -/

/-- At the capped sample's quote, `1 + j/2 = 3^13`, so the effective annual
rate is `3^26 - 1`. -/
lemma cap_ear : ear_from_semi_annual_quote capParams.quoted_rate_percent =
    2541865828328 := by
  norm_num [capParams, ear_from_semi_annual_quote]

/-- The annual growth factor of the capped sample is `3^26`. -/
lemma cap_base : (1 : ℝ) + ((2541865828328 : ℚ) : ℝ) = (3 : ℝ) ^ (26 : ℕ) := by
  norm_num

/-- The capped sample's bi-weekly periodic rate is exactly 2. -/
lemma cap_rate26 : periodic_rate ((2541865828328 : ℚ) : ℝ) 26 = 2 := by
  unfold periodic_rate
  rw [cap_base]
  push_cast
  rw [← Real.rpow_natCast 3 26, ← Real.rpow_mul (by norm_num : (0 : ℝ) ≤ 3)]
  norm_num

/-- The capped sample's monthly periodic rate is at least 8. -/
lemma cap_rate12_ge : (8 : ℝ) ≤ periodic_rate ((2541865828328 : ℚ) : ℝ) 12 := by
  unfold periodic_rate
  rw [cap_base]
  push_cast
  rw [← Real.rpow_natCast 3 26, ← Real.rpow_mul (by norm_num : (0 : ℝ) ≤ 3)]
  have h := Real.rpow_le_rpow_of_exponent_le (show (1 : ℝ) ≤ 3 by norm_num)
    (show (2 : ℝ) ≤ (26 : ℕ) * ((1 : ℝ) / 12) by push_cast; norm_num)
  rw [Real.rpow_two] at h
  nlinarith [h]

/-- The capped sample's rapid bi-weekly payment exceeds 3. -/
lemma cap_payment_gt :
    3 < schedule_payment capParams (r"rapid_biweekly") 26 := by
  unfold schedule_payment
  rw [if_pos (by decide), if_pos (by decide)]
  unfold standard_monthly_pmt level_payment
  rw [cap_ear]
  have hP : ((capParams.principal : ℚ) : ℝ) = 1 := by norm_num [capParams]
  have hn : capParams.amort_years * 12 = 12 := by decide
  rw [hP, hn]
  have h8 : (8 : ℝ) ≤ periodic_rate ((2541865828328 : ℚ) : ℝ) 12 := cap_rate12_ge
  have hr0 : 0 ≤ periodic_rate ((2541865828328 : ℚ) : ℝ) 12 := by linarith
  have hpva_pos : 0 < pva (periodic_rate ((2541865828328 : ℚ) : ℝ) 12) 12 :=
    pva_pos _ 12 hr0 (by norm_num)
  have hmul : periodic_rate ((2541865828328 : ℚ) : ℝ) 12 *
      pva (periodic_rate ((2541865828328 : ℚ) : ℝ) 12) 12 ≤ 1 :=
    rate_mul_pva_le_one _ 12 hr0
  have hpva_le : pva (periodic_rate ((2541865828328 : ℚ) : ℝ) 12) 12 ≤ 1 / 8 := by
    rw [le_div_iff₀ (show (0 : ℝ) < 8 by norm_num)]
    nlinarith [hmul, h8, hpva_pos]
  have hinv : (8 : ℝ) ≤ 1 / pva (periodic_rate ((2541865828328 : ℚ) : ℝ) 12) 12 := by
    rw [le_div_iff₀ hpva_pos]
    nlinarith [hpva_le]
  linarith

/-- The capped sample's rapid bi-weekly schedule is a single capped row:
the very first period would be overpaid, so the payment is capped at
balance plus interest and the schedule ends at once. -/
lemma cap_build :
    build_schedule_df capParams (r"rapid_biweekly") =
      Except.ok ([⟨1, 1, 2, 3, 0⟩], r"Rapid Bi-weekly", 26) := by
  rw [build_schedule_df_some capParams (r"rapid_biweekly") 26
    (r"Rapid Bi-weekly") (by decide)]
  rw [cap_ear, cap_rate26]
  have ht : (capParams.term_years * 26).toNat = 26 := by decide
  have hb : ((capParams.principal : ℚ) : ℝ) = 1 := by norm_num [capParams]
  rw [ht, hb]
  have hcap : schedule_payment capParams (r"rapid_biweekly") 26 -
      (1 : ℝ) * 2 > 1 := by
    have := cap_payment_gt
    linarith
  rw [show (26 : ℕ) = 25 + 1 from rfl,
    scheduleLoop_succ_capped 2 (schedule_payment capParams (r"rapid_biweekly") 26)
      25 1 1 hcap]
  norm_num [ScheduleRow.mk.injEq]

/-! ## Witnesses for the schedule-level claims -/

/-- Witness for C3 at the capped sample: the first (and only) row of the
rapid bi-weekly schedule is the capped row `(1, 1, 2, 3, 0)`. -/
theorem capped_final_period_witness :
    (ScheduleRow.mk 1 1 2 3 0).payment =
        (ScheduleRow.mk 1 1 2 3 0).startBalance +
          (ScheduleRow.mk 1 1 2 3 0).interest ∧
      (ScheduleRow.mk 1 1 2 3 0).endBalance = 0 ∧
      0 + 1 = ([⟨1, 1, 2, 3, 0⟩] : List ScheduleRow).length :=
  capped_final_period capParams (r"rapid_biweekly")
    ((validate_ok_iff capParams).mpr (by norm_num [capParams]))
    [⟨1, 1, 2, 3, 0⟩] (r"Rapid Bi-weekly") 26 cap_build 0 (by norm_num)
    (by
      show schedule_payment capParams (r"rapid_biweekly") 26 - (2 : ℝ) > 1
      have := cap_payment_gt
      linarith)

/-- Witness for C4 at the sample monthly schedule: its second row has a
non-negative ending balance. -/
theorem ending_balance_monotone_nonneg_witness :
    0 ≤ (ScheduleRow.mk 2 (11 / 1000) 0 (1 / 1000) (1 / 100)).endBalance :=
  (ending_balance_monotone_nonneg sampleParams (r"monthly")
    ((validate_ok_iff sampleParams).mpr (by norm_num [sampleParams]))
    [⟨1, 3 / 250, 0, 1 / 1000, 11 / 1000⟩, ⟨2, 11 / 1000, 0, 1 / 1000, 1 / 100⟩]
    (r"Monthly") 12 sample_build).1 _
    (List.mem_cons_of_mem _ (List.mem_cons_self _ _))

/-- Witness for C5 at the sample monthly schedule: the second row ends at
the 0.01 floor and is indeed the last of the two rows. -/
theorem low_balance_terminates_witness :
    1 + 1 = ([⟨1, 3 / 250, 0, 1 / 1000, 11 / 1000⟩,
      ⟨2, 11 / 1000, 0, 1 / 1000, 1 / 100⟩] : List ScheduleRow).length :=
  low_balance_terminates sampleParams (r"monthly")
    ((validate_ok_iff sampleParams).mpr (by norm_num [sampleParams]))
    [⟨1, 3 / 250, 0, 1 / 1000, 11 / 1000⟩, ⟨2, 11 / 1000, 0, 1 / 1000, 1 / 100⟩]
    (r"Monthly") 12 sample_build 1 (by norm_num)
    (by show (1 : ℝ) / 100 ≤ 0.01; norm_num)

/-- Witness for C6 at the sample monthly schedule: two rows against the
twelve term periods. -/
theorem schedule_length_bound_witness :
    ((([⟨1, 3 / 250, 0, 1 / 1000, 11 / 1000⟩,
        ⟨2, 11 / 1000, 0, 1 / 1000, 1 / 100⟩] : List ScheduleRow).length : ℤ)) ≤
      sampleParams.term_years * 12 :=
  schedule_length_bound sampleParams (r"monthly")
    ((validate_ok_iff sampleParams).mpr (by norm_num [sampleParams]))
    [⟨1, 3 / 250, 0, 1 / 1000, 11 / 1000⟩, ⟨2, 11 / 1000, 0, 1 / 1000, 1 / 100⟩]
    (r"Monthly") 12 sample_build

/-- Witness for C10 at the sample monthly schedule: the first row starts at
the principal. -/
theorem schedule_row_accounting_witness :
    (ScheduleRow.mk 1 (3 / 250) 0 (1 / 1000) (11 / 1000)).startBalance =
      (sampleParams.principal : ℝ) :=
  (schedule_row_accounting sampleParams (r"monthly")
    ((validate_ok_iff sampleParams).mpr (by norm_num [sampleParams]))
    [⟨1, 3 / 250, 0, 1 / 1000, 11 / 1000⟩, ⟨2, 11 / 1000, 0, 1 / 1000, 1 / 100⟩]
    (r"Monthly") 12 sample_build).2.1 (by norm_num)
